import Mathlib

/-!
Verification of the s7 C++/Scheme marshaling bridge (src/s7.hpp).

This file gives a shallow embedding of the bridge's core subsystems:

* the value converter `detail::is` / `detail::to` / `detail::from`
  (lines 295-476 of s7.hpp), restricted to the scalar kinds that the
  frozen claims mention, plus boxed native objects;
* the fixed-arity call adapter `detail::call_fn` (lines 608-647),
  modelled with `S7_DEBUGGING` (validation builds) enabled;
* the overload matcher `detail::_match_fn` / `detail::match_fn`
  (lines 682-730) and the dispatch closure built by
  `Scheme::_make_overload` (lines 816-855);
* the arithmetic operator wrapper `Scheme::make_method_op_function`
  (lines 857-893) and the substitution bookkeeping in
  `Scheme::usertype_add_method_op` (lines 934-956);
* the `is_equal` hook installed by `Scheme::make_usertype`
  (lines 1318-1333);
* the arity helpers `detail::vmin` / `detail::vmax` /
  `detail::max_arity` / `detail::min_arity` (lines 485-490).

Modelling conventions.  A dynamic s7 value is the inductive `SVal`;
the payload of an s7 real is modelled as a rational number (the source
performs no floating-point arithmetic on it, only store/retrieve), an
s7 string as a Lean `String`, and a boxed native object as its
registry tag together with an abstract object identifier.  The runtime
primitives the bridge calls (s7_is_boolean, s7_make_integer, ...) are
out-of-scope collaborators; they are modelled by their documented
behaviour (in particular s7's `s7_is_real` accepts integers as well as
reals, and `s7_make_string` copies a C string up to its first NUL
byte).  Native callables are Lean functions; each adapter model
additionally returns the list of invocations performed on the
underlying native callable, so that "is invoked exactly once with
these arguments" is a statement about the model's output.  An
unchecked extraction applied to a value of the wrong runtime kind is
undefined behaviour in the source; the model maps it to the explicit
marker `NVal.junk`.
-/

namespace S7

/-- Model of an s7 dynamic value (an `s7_pointer`), restricted to the
kinds the claims exercise.  `cobj tag obj` is a boxed native object
carrying its registry type tag and an abstract identifier for the
boxed host object. -/
inductive SVal where
  | boolean (b : Bool)
  | integer (n : Int)
  | real (q : ℚ)
  | str (s : String)
  | char (c : Nat)
  | sym (s : String)
  | cobj (tag : Int) (obj : Nat)
  | nilv
  | unspecified
  deriving DecidableEq, Repr

/-- Runtime predicate `s7_is_boolean`. -/
def s7_is_boolean : SVal → Bool
  | .boolean _ => true
  | _ => false

/-- Runtime predicate `s7_is_integer`. -/
def s7_is_integer : SVal → Bool
  | .integer _ => true
  | _ => false

/-- Runtime predicate `s7_is_real`: in s7, `real?` is true of every
real number, including integers. -/
def s7_is_real : SVal → Bool
  | .real _ => true
  | .integer _ => true
  | _ => false

/-- Runtime predicate `s7_is_string`. -/
def s7_is_string : SVal → Bool
  | .str _ => true
  | _ => false

/-- Runtime predicate `s7_is_character`. -/
def s7_is_character : SVal → Bool
  | .char _ => true
  | _ => false

/-- Runtime predicate `s7_is_c_object`. -/
def s7_is_c_object : SVal → Bool
  | .cobj _ _ => true
  | _ => false

/-- Runtime accessor `s7_c_object_type`, defaulting to `-1` on values
that are not c-objects (the source never applies it to those on the
paths modelled here). -/
def s7_c_object_type : SVal → Int
  | .cobj tag _ => tag
  | _ => -1

/-- The value of a NUL-terminated C string whose buffer holds the
bytes of `s`: everything up to the first NUL byte.  This models both
what `s7_make_string` copies out of a `const char *` and what the
`std::string_view(const char *)` constructor measures with `strlen`. -/
def cstrTrunc (s : String) : String :=
  String.mk (s.toList.takeWhile (fun c => c ≠ Char.ofNat 0))

/-- The native C++ types covered by the model, mirroring the closed
`if constexpr` dispatch of `detail::is` / `detail::to` /
`detail::from`.  `nObj tag name` stands for a user-defined native type
registered under `tag` whose display name (resolved through the
runtime's c-types table by `detail::get_type_name`) is `name`. -/
inductive NType where
  | nBool
  | nInt
  | nDouble
  | nCStr
  | nSView
  | nUChar
  | nObj (tag : Int) (name : String)
  deriving DecidableEq, Repr

/-- A native value, the universal carrier for arguments and results of
native callables.  `junk` marks the outcome of an unchecked extraction
applied to a value of the wrong runtime kind — undefined behaviour in
the C++ source, about which the model promises nothing beyond "not a
specified native value". -/
inductive NVal where
  | vBool (b : Bool)
  | vInt (n : Int)
  | vReal (q : ℚ)
  | vStr (s : String)
  | vChar (c : Nat)
  | vObj (tag : Int) (obj : Nat)
  | junk
  deriving DecidableEq, Repr

/-- Model of `detail::is<T>` (s7.hpp lines 295-318): the runtime-kind
check for each supported native type; for user-defined types, a
c-object check together with tag equality. -/
def isD : NType → SVal → Bool
  | .nBool, v => s7_is_boolean v
  | .nInt, v => s7_is_integer v
  | .nDouble, v => s7_is_real v
  | .nCStr, v => s7_is_string v
  | .nSView, v => s7_is_string v
  | .nUChar, v => s7_is_character v
  | .nObj tag _, v => s7_is_c_object v && (s7_c_object_type v = tag)

/-- Model of `detail::to<T>` (s7.hpp lines 320-350), the unchecked
extraction.  Notable faithful details:

* `to<const char *>` returns `s7_string(p)`, whose C-string value is
  the stored bytes up to the first NUL;
* `to<std::string_view>` builds `std::string_view(s7_string(p))`
  with the NUL-terminated constructor, so it too stops at the first
  NUL byte even though the stored s7 string is length-prefixed;
* the `to` chain has a case for `char` but none for `unsigned char`,
  so `to<unsigned char>` falls through to the final native-object
  branch, `*reinterpret_cast<T *>(s7_c_object_value(p))` — reading a
  character value through `s7_c_object_value` is undefined; the model
  returns `junk` for every operand of that shape;
* `to<double>` is `s7_real(p)`, which also accepts integer values;
* every extraction applied to a value of the wrong runtime kind is
  undefined behaviour (`junk`). -/
def toD : NType → SVal → NVal
  | .nBool, .boolean b => .vBool b
  | .nBool, _ => .junk
  | .nInt, .integer n => .vInt n
  | .nInt, _ => .junk
  | .nDouble, .real q => .vReal q
  | .nDouble, .integer n => .vReal (n : ℚ)
  | .nDouble, _ => .junk
  | .nCStr, .str s => .vStr (cstrTrunc s)
  | .nCStr, _ => .junk
  | .nSView, .str s => .vStr (cstrTrunc s)
  | .nSView, _ => .junk
  | .nUChar, _ => .junk
  | .nObj tag _, .cobj tag' obj => if tag' = tag then .vObj tag' obj else .junk
  | .nObj _ _, _ => .junk

/-- Model of `detail::from<T>` (s7.hpp lines 360-417) on the covered
types.  `from<const char *>` is `s7_make_string`, which copies the
C string up to its NUL terminator; `from<std::string_view>` is
`s7_make_string_with_length(x.data(), x.size())`, which stores every
byte including embedded NULs; `from<unsigned char>` is
`s7_make_character`; a user-defined type is boxed as a c-object
tagged with the type's registered tag.  Applying `from<T>` to a
native value of a different shape is not representable in the typed
C++ source; those unreachable cases map to `SVal.unspecified`. -/
def fromD : NType → NVal → SVal
  | .nBool, .vBool b => .boolean b
  | .nInt, .vInt n => .integer n
  | .nDouble, .vReal q => .real q
  | .nCStr, .vStr s => .str (cstrTrunc s)
  | .nSView, .vStr s => .str s
  | .nUChar, .vChar c => .char c
  | .nObj tag _, .vObj _ obj => .cobj tag obj
  | _, _ => .unspecified

/-- Model of `detail::type_to_string<T>` (s7.hpp lines 478-483): the
display name of a native type — the fixed name of the scheme kind for
built-in kinds, the registered name for user-defined types. -/
def displayName : NType → String
  | .nBool => "boolean"
  | .nInt => "integer"
  | .nDouble => "real"
  | .nCStr => "string"
  | .nSView => "string"
  | .nUChar => "char"
  | .nObj _ name => name

/-- A native value has the shape declared by a native type (guaranteed
by the C++ type system for actual arguments and results of native
callables). -/
def wellTypedB : NType → NVal → Bool
  | .nBool, .vBool _ => true
  | .nInt, .vInt _ => true
  | .nDouble, .vReal _ => true
  | .nCStr, .vStr _ => true
  | .nSView, .vStr _ => true
  | .nUChar, .vChar _ => true
  | .nObj tag _, .vObj tag' _ => tag' = tag
  | _, _ => false

/-! ## The fixed-arity call adapter, `detail::call_fn` (lines 608-647)

A registered native callable of type `(A1, ..., An) -> R` is modelled
by an `Adapter`: the display name stored in `detail::LambdaTable`, the
declared parameter types, the return type (`none` models `void`), and
the callable itself as a function on native values.  The model follows
the validation build (`S7_DEBUGGING` defined), in which `call_fn`
checks each materialized argument against `is<Ai>` before converting
and invoking. -/

/-- A fixed-arity adapter: the data `detail::make_s7_function` wires
up for one native callable. -/
structure Adapter where
  name : String
  params : List NType
  ret : Option NType
  native : List NVal → NVal

/-- Outcome of one interpreter-level call through an adapter.
`wrongType caller pos arg expected` models
`s7_wrong_type_arg_error(sc, caller, pos, arg, expected)`, the
runtime's non-returning wrong-type raise with a 1-based position. -/
inductive CallOutcome where
  | ok (v : SVal)
  | wrongType (caller : String) (pos : Nat) (arg : SVal) (expected : String)
  deriving DecidableEq, Repr

/-- The first position (0-based) at which an argument fails its
declared `is` check, together with the offending value and the
expected type; `none` when every checked position passes.  This models
the `bools` array and `std::find(bools.begin(), bools.end(), false)`
in `call_fn` / `_match_fn`. -/
def firstMismatch : List NType → List SVal → Option (Nat × SVal × NType)
  | p :: ps, v :: vs =>
    if isD p v then (firstMismatch ps vs).map (fun x => (x.1 + 1, x.2)) else some (0, v, p)
  | _, _ => none

/-- All declared positions pass their `is` checks (and the lengths
agree). -/
def allPass : List NType → List SVal → Bool
  | [], [] => true
  | p :: ps, v :: vs => isD p v && allPass ps vs
  | _, _ => false

/-- The return value `call_fn` produces on a type-correct call: the
native callable's result converted through `from<R>`, or the runtime's
canonical unspecified value when `R` is `void`. -/
def retValue (a : Adapter) (conv : List NVal) : SVal :=
  match a.ret with
  | none => SVal.unspecified
  | some r => fromD r (a.native conv)

/-- Model of `detail::call_fn` in a validation build (s7.hpp lines
608-647).  The adapter walks the incoming argument list exactly `n`
times (the runtime has already enforced the declared arity, so the
list holds at least `n` values), checks each materialized argument
with `is<Ai>`, and on the first failure raises a wrong-type error with
the 1-based position, the offending value and the expected type's
display name; otherwise it converts each argument with `to<Ai>` and
invokes the native callable once.  The second component records every
invocation of the native callable, each with the argument list it
received. -/
def callFn (a : Adapter) (args : List SVal) : CallOutcome × List (List NVal) :=
  let arr := args.take a.params.length
  match firstMismatch a.params arr with
  | some (i, v, t) => (.wrongType a.name (i + 1) v (displayName t), [])
  | none =>
    let conv := List.zipWith toD a.params arr
    (.ok (retValue a conv), [conv])

/-! ## The overload matcher and dispatcher (lines 682-730, 816-855)

A candidate of an overload set is either a fixed-arity callable (with
its parameter types, return type and native function, as in an
`Adapter`) or a variadic callable.  In this library a variadic native
callable necessarily takes the `VarArgs` cursor as its only parameter:
`detail::call_fn_varargs` (lines 649-660) invokes
`fn(VarArgs<T>(sc, args, name))` with no other arguments, so a
callable with leading fixed parameters would not compile.  A variadic
candidate therefore accepts any number of actual arguments, and
`define_function` registers a standalone variadic function with zero
required parameters (line 1183).  The variadic candidate's callable is
modelled at the dynamic level (cursor accesses convert lazily inside
it), already composed with `from<R>` on its result. -/

/-- One candidate of an overload set. -/
inductive Candidate where
  | fixed (name : String) (params : List NType) (ret : Option NType) (native : List NVal → NVal)
  | variadic (ret : Option NType) (elem : NType) (fn : List SVal → SVal)

/-- The minimum number of actual arguments a variadic candidate
accepts: zero, since its native callable receives only the cursor
(see the section comment above). -/
def variadicMinArity : Nat := 0

/-- Whether `match_fn` reaches the line that invokes the candidate's
native callable: for a fixed candidate (`detail::_match_fn`), the
actual length must equal the declared arity and every positional
argument must pass its `is` check; for a variadic candidate,
`match_fn` branches straight to `call_fn_varargs`, which always
invokes the callable — no arity or type check is performed. -/
def candInvoked : Candidate → List SVal → Nat → Bool
  | .fixed _ params _ _, args, length =>
    if length ≠ params.length then false
    else allPass params (args.take params.length)
  | .variadic _ _ _, _, _ => true

/-- Whether a candidate matches the call (same condition as
`candInvoked`: in this code, reaching the invocation is the same
event as matching). -/
def candMatches (c : Candidate) (args : List SVal) : Bool :=
  candInvoked c args args.length

/-- The dynamic value a candidate's invocation produces. -/
def candResult : Candidate → List SVal → SVal
  | .fixed _ params ret native, args =>
    retValue ⟨"", params, ret, native⟩ (List.zipWith toD params (args.take params.length))
  | .variadic ret _ f, args =>
    match ret with
    | none => SVal.unspecified
    | some _ => f args

/-- Model of `detail::match_fn` (lines 717-730): `nullptr` (`none`)
when the candidate does not match, otherwise the candidate's result.
A variadic candidate goes straight to `call_fn_varargs` and always
produces a result. -/
def matchC (c : Candidate) (args : List SVal) (length : Nat) : Option SVal :=
  match c with
  | .fixed _ params _ _ =>
    if length ≠ params.length then none
    else if allPass params (args.take params.length) then some (candResult c args)
    else none
  | .variadic _ _ _ => some (candResult c args)

/-- Signature descriptor built by `Scheme::make_signature` (lines
1128-1140): the return-type predicate followed by the per-parameter
predicates, as predicate names (`type_to_string + "?"`); a variadic
candidate gets a circular signature over its element type. -/
structure SigDesc where
  circular : Bool
  preds : List String
  deriving DecidableEq, Repr

/-- The predicate name for a return type (`void` displays as the
unspecified kind). -/
def retPred : Option NType → String
  | none => "unspecified?"
  | some t => displayName t ++ "?"

/-- The signature of a candidate, as `_make_overload` attaches it to
the no-match diagnostic via `make_signature(&Fns::operator())`. -/
def sigOf : Candidate → SigDesc
  | .fixed _ params ret _ =>
    ⟨false, retPred ret :: params.map (fun t => displayName t ++ "?")⟩
  | .variadic ret elem _ =>
    ⟨true, [retPred ret, displayName elem ++ "?"]⟩

/-- Model of `Scheme::type_of` (lines 1465-1500) restricted to the
value shapes of `SVal`, composed with `scheme_type_to_string`; this is
what the no-match diagnostic records for each actual argument. -/
def typeOfString : SVal → String
  | .boolean _ => "boolean"
  | .integer _ => "integer"
  | .real _ => "real"
  | .str _ => "string"
  | .char _ => "char"
  | .sym _ => "symbol"
  | .cobj _ _ => "c-object"
  | .nilv => "null"
  | .unspecified => "unspecified"

/-- The message string the dispatcher formats when no candidate
matches: one `~a` hole for the argument list plus one `\n;~a` line per
candidate. -/
def noMatchMsg (numFns : Nat) : String :=
  "arglist ~a doesn\x27t match any signature for this function\n;valid signatures:"
    ++ String.join (List.replicate numFns "\n;~a")

/-- Outcome of one call through the dispatch closure built by
`Scheme::_make_overload`: either the selected candidate's result, or
the `s7_error` raise tagged `no-overload-match` whose payload carries
the formatted message, the actual argument types, and every
candidate's signature. -/
inductive DOutcome where
  | value (v : SVal)
  | noMatch (tag : String) (msg : String) (argTypes : List String) (sigs : List SigDesc)
  deriving DecidableEq, Repr

/-- The per-candidate results array the dispatcher materializes:
`std::array { match_fn<Fns>(sc, args, length)... }` — aggregate
initialization evaluates `match_fn` for every candidate, in
declaration order. -/
def dispatchResults (cs : List Candidate) (args : List SVal) : List (Option SVal) :=
  cs.map (fun c => matchC c args args.length)

/-- The first non-null entry of the results array
(`std::find_if(results.begin(), results.end(), p != nullptr)`
followed by dereference). -/
def firstHit : List (Option SVal) → Option SVal
  | [] => none
  | some v :: _ => some v
  | none :: rest => firstHit rest

/-- Which candidates have their native callable invoked during one
dispatch (one flag per candidate, in declaration order).  Because the
dispatcher evaluates `match_fn` for every candidate before looking at
the results, a candidate is invoked whenever it matches, regardless of
earlier candidates. -/
def dispatchInvoked (cs : List Candidate) (args : List SVal) : List Bool :=
  cs.map (fun c => candInvoked c args args.length)

/-- Model of the dispatch closure of `Scheme::_make_overload` (lines
826-855): compute the argument-list length once, materialize every
candidate's `match_fn` result, return the first non-null one;
otherwise raise the `no-overload-match` error with the diagnostic
payload. -/
def overloadDispatch (cs : List Candidate) (args : List SVal) : DOutcome :=
  match firstHit (dispatchResults cs args) with
  | some v => .value v
  | none =>
    .noMatch "no-overload-match" (noMatchMsg cs.length)
      (args.map typeOfString) (cs.map sigOf)

/-! ## The arithmetic operator wrapper, `Scheme::make_method_op_function`
(lines 857-893)

The wrapper substituted for a built-in arithmetic operator captures
the original binding (`old`) and, per call, folds its arguments left
to right.  Method lookup (`find_method(s7_c_object_let(p), Name)`)
searches the metadata container attached to the c-object `p`; all
instances of a registered type share the type's container, so the
model keys the method table by the object's registry tag together
with the method name.  The source contains a duplicated
`args.size() == 0` branch (line 865) that is unreachable — the same
condition was already taken at line 863 — so it is not part of the
model.  The original built-in operator is itself variadic and is
modelled as a function on argument lists; for an empty call the
wrapper evaluates `call(old, nil())`, which builds a one-element
argument list holding the empty list. -/

/-- One observable event during a wrapper call: a method lookup on a
metadata container, an invocation of a native operator method, or an
invocation of the original built-in operator. -/
inductive OpEvent where
  | lookup (tag : Int) (name : String)
  | methodCall (tag : Int) (a b : SVal)
  | builtinCall (xs : List SVal)

/-- Outcome of a wrapper call: a value, or the non-returning
`s7_wrong_type_arg_error(sc, caller, pos, arg, descriptor)` raise. -/
inductive OpOut where
  | ok (v : SVal)
  | wrongType (caller : String) (pos : Nat) (arg : SVal) (descriptor : String)

/-- One fold step of the wrapper over the operand pair `(res, arg)`
(the body of the `for` loop, lines 879-890): if either operand is a
c-object, look up the operator method on the c-object operand's
metadata container (preferring `res` when both are) and call it with
both operands, raising a wrong-type error with the literal descriptor
string `"a c-object that defines +"` (hardcoded at line 884 for every
operator) if the method is absent; otherwise delegate the pair to the
original built-in. -/
def opPair (mtab : Int → String → Option (SVal → SVal → SVal))
    (old : List SVal → SVal) (opName : String) (res arg : SVal) :
    OpOut × List OpEvent :=
  if s7_is_c_object res || s7_is_c_object arg then
    let p := if s7_is_c_object res then res else arg
    match mtab (s7_c_object_type p) opName with
    | none =>
      (.wrongType opName 0 res "a c-object that defines +",
       [.lookup (s7_c_object_type p) opName])
    | some m =>
      (.ok (m res arg),
       [.lookup (s7_c_object_type p) opName, .methodCall (s7_c_object_type p) res arg])
  else
    (.ok (old [res, arg]), [.builtinCall [res, arg]])

/-- The left-to-right fold over the remaining arguments, starting from
the accumulated value `res`.  A raised wrong-type error does not
return, so the fold stops there. -/
def opFoldAux (mtab : Int → String → Option (SVal → SVal → SVal))
    (old : List SVal → SVal) (opName : String) :
    SVal → List SVal → OpOut × List OpEvent
  | res, [] => (.ok res, [])
  | res, arg :: rest =>
    match opPair mtab old opName res arg with
    | (.ok r, evs) =>
      let next := opFoldAux mtab old opName r rest
      (next.1, evs ++ next.2)
    | (out, evs) => (out, evs)

/-- Model of the variadic wrapper returned by
`Scheme::make_method_op_function<op>` (lines 861-892), together with
the trace of observable events.  A zero-argument call evaluates
`call(old, nil())`, i.e. the built-in applied to the one-element
argument list holding nil. -/
def methodOpWrapper (mtab : Int → String → Option (SVal → SVal → SVal))
    (old : List SVal → SVal) (opName : String) (args : List SVal) :
    OpOut × List OpEvent :=
  match args with
  | [] => (.ok (old [SVal.nilv]), [.builtinCall [SVal.nilv]])
  | res :: rest => opFoldAux mtab old opName res rest

/-! ## Operator substitution bookkeeping,
`Scheme::usertype_add_method_op` (lines 934-956)

Every registration of an operator method stores the method in the
registering type's metadata container; the built-in operator binding
is replaced with the wrapper only when the operator is not yet in the
per-instance `substitured_ops` set, after which the operator is added
to the set.  `substitured_ops` is a member of `Scheme`, so the set is
scoped to one interpreter instance and starts empty. -/

/-- The four arithmetic operators with method-based substitution. -/
inductive MethodOp where
  | add
  | sub
  | mul
  | div
  deriving DecidableEq, Repr

/-- One observable registration action: defining the method in a
type's metadata container (`s7_define(sc, let, opname, method)`), or
replacing the runtime's operator binding with the wrapper
(`define_function(opname, doc, make_method_op_function<op>())`). -/
inductive RegAction where
  | defineMethod (typeName : String) (op : MethodOp)
  | substituteOp (op : MethodOp)
  deriving DecidableEq, Repr

/-- The per-instance state: which operators have already had their
built-in binding substituted. -/
structure SchemeState where
  substituredOps : List MethodOp

/-- A fresh `Scheme` instance has substituted nothing. -/
def initState : SchemeState := ⟨[]⟩

/-- Model of one call to `usertype_add_method_op` for the type named
`typeName` and operator `op`: always define the method in the type's
container; substitute the operator binding only if it has not been
substituted in this instance yet. -/
def addMethodOp (st : SchemeState) (typeName : String) (op : MethodOp) :
    SchemeState × List RegAction :=
  if op ∈ st.substituredOps then
    (st, [.defineMethod typeName op])
  else
    (⟨op :: st.substituredOps⟩, [.defineMethod typeName op, .substituteOp op])

/-- Run a sequence of operator-method registrations against a state,
accumulating the actions performed. -/
def runRegs (st : SchemeState) : List (String × MethodOp) → SchemeState × List RegAction
  | [] => (st, [])
  | r :: rs =>
    let step := addMethodOp st r.1 r.2
    let rest := runRegs step.1 rs
    (rest.1, step.2 ++ rest.2)

/-- How many times a run substituted the binding of `op`. -/
def countSubst (op : MethodOp) : List RegAction → Nat
  | [] => 0
  | .substituteOp o :: rest => (if o = op then 1 else 0) + countSubst op rest
  | _ :: rest => countSubst op rest

/-- Whether some registration in the list targets `op`. -/
def hasOp (op : MethodOp) : List (String × MethodOp) → Bool
  | [] => false
  | r :: rs => r.2 = op || hasOp op rs

/-! ## The equality hook installed by `Scheme::make_usertype`
(lines 1318-1333)

The hook receives two s7 pointers; pointer identity is modelled by
pairing each dynamic value with the heap address it lives at. -/

/-- An s7 pointer: a heap address together with the value stored
there. -/
structure SPtr where
  id : Nat
  v : SVal

/-- Model of the `is_equal` hook registered for a native type with
value equality (lines 1319-1332): identity first, then tag
compatibility of `b`, then `T`'s native equality on the two unboxed
objects (the native `operator==` is modelled as a relation `eqT` on
the abstract object identifiers).  The code unboxes `a` with
`s7_c_object_value` unconditionally at that point; if `a` were not a
c-object that read would be undefined, modelled as
`SVal.unspecified`. -/
def isEqualHook (tag : Int) (eqT : Nat → Nat → Bool) (a b : SPtr) : SVal :=
  if a.id = b.id then .boolean true
  else if ¬(s7_is_c_object b.v && (s7_c_object_type b.v = tag)) then .boolean false
  else
    match a.v with
    | .cobj _ oa =>
      match b.v with
      | .cobj _ ob => .boolean (eqT oa ob)
      | _ => .unspecified
    | _ => .unspecified

/-! ## The arity helpers `detail::vmin` / `detail::vmax` (lines
485-490)

The source recursions are
`vmin(a) = a`, `vmin(a, args...) = std::min(a, vmin(args...))`,
`vmax(a) = a`, `vmax(a, args...) = std::max(a, vmin(args...))` —
note that `vmax`'s recursive call is to `vmin`.
`max_arity<Fns...>() = vmax(arity...)` and
`min_arity<Fns...>() = vmin(arity...)`; the overload registration
(lines 1203-1208) declares `min_arity` required arguments and
`max_arity - min_arity` optional ones. -/

/-- Model of `detail::vmin` on a non-empty argument pack, written as
head plus tail. -/
def vminM : Nat → List Nat → Nat
  | a, [] => a
  | a, b :: rest => min a (vminM b rest)

/-- Model of `detail::vmax` on a non-empty argument pack, exactly as
written in the source: the recursive call is to `vmin`. -/
def vmaxM : Nat → List Nat → Nat
  | a, [] => a
  | a, b :: rest => max a (vminM b rest)

/-- Model of `detail::min_arity` over the candidate arities. -/
def minArityM (a : Nat) (rest : List Nat) : Nat := vminM a rest

/-- Model of `detail::max_arity` over the candidate arities. -/
def maxArityM (a : Nat) (rest : List Nat) : Nat := vmaxM a rest

/-- The true maximum of a non-empty arity list, which the registration
bounds are supposed to declare. -/
def trueMax (a : Nat) (rest : List Nat) : Nat := rest.foldl max a

/-! ## Helper lemmas -/

lemma firstMismatch_none_of_allPass :
    ∀ (ps : List NType) (vs : List SVal),
    allPass ps vs = true → firstMismatch ps vs = none := by
  intro ps
  induction ps with
  | nil =>
    intro vs h
    cases vs <;> simp [firstMismatch]
  | cons p ps ih =>
    intro vs h
    cases vs with
    | nil => simp [allPass] at h
    | cons v vs =>
      simp only [allPass, Bool.and_eq_true] at h
      simp [firstMismatch, h.1, ih vs h.2]

lemma firstMismatch_first :
    ∀ (i : Nat) (ps : List NType) (vs : List SVal),
    i < ps.length → i < vs.length →
    isD (ps.getD i .nBool) (vs.getD i .unspecified) = false →
    (∀ j, j < i → isD (ps.getD j .nBool) (vs.getD j .unspecified) = true) →
    firstMismatch ps vs = some (i, vs.getD i .unspecified, ps.getD i .nBool) := by
  intro i
  induction i with
  | zero =>
    intro ps vs hp hv hfail _
    cases ps with
    | nil => simp at hp
    | cons p ps =>
      cases vs with
      | nil => simp at hv
      | cons v vs =>
        simp only [List.getD_cons_zero] at hfail
        simp [firstMismatch, hfail]
  | succ i ih =>
    intro ps vs hp hv hfail hbefore
    cases ps with
    | nil => simp at hp
    | cons p ps =>
      cases vs with
      | nil => simp at hv
      | cons v vs =>
        have h0 : isD p v = true := by
          have := hbefore 0 (Nat.succ_pos _)
          simpa using this
        have ih' := ih ps vs (by simpa using hp) (by simpa using hv)
          (by simpa using hfail)
          (by
            intro j hj
            have := hbefore (j + 1) (Nat.succ_lt_succ hj)
            simpa using this)
        simp [firstMismatch, h0, ih']

lemma wellTyped_isD_fromD :
    ∀ (r : NType) (v : NVal), wellTypedB r v = true → isD r (fromD r v) = true := by
  intro r v h
  cases r <;> cases v <;>
    simp_all [wellTypedB, fromD, isD, s7_is_boolean, s7_is_integer, s7_is_real,
      s7_is_string, s7_is_character, s7_is_c_object, s7_c_object_type]

lemma matchC_eq (c : Candidate) (args : List SVal) :
    matchC c args args.length
      = if candMatches c args then some (candResult c args) else none := by
  cases c with
  | fixed n ps r f =>
    by_cases h : args.length ≠ ps.length
    · simp [matchC, candMatches, candInvoked, h]
    · by_cases h2 : allPass ps (args.take ps.length) = true
      · simp [matchC, candMatches, candInvoked, h, h2]
      · simp [matchC, candMatches, candInvoked, h, h2]
  | variadic r e f => simp [matchC, candMatches, candInvoked]

lemma firstHit_first :
    ∀ (pre : List Candidate) (c : Candidate) (post : List Candidate) (args : List SVal),
    (∀ c' ∈ pre, candMatches c' args = false) → candMatches c args = true →
    firstHit (dispatchResults (pre ++ c :: post) args) = some (candResult c args) := by
  intro pre
  induction pre with
  | nil =>
    intro c post args _ hc
    simp [dispatchResults, matchC_eq, hc, firstHit]
  | cons c' pre ih =>
    intro c post args hpre hc
    have h' : candMatches c' args = false := hpre c' (List.mem_cons_self c' pre)
    have ihv := ih c post args (fun d hd => hpre d (List.mem_cons_of_mem c' hd)) hc
    simp only [dispatchResults, List.cons_append, List.map_cons] at ihv ⊢
    rw [matchC_eq, h']
    simpa [firstHit] using ihv

lemma dispatch_first :
    ∀ (pre : List Candidate) (c : Candidate) (post : List Candidate) (args : List SVal),
    (∀ c' ∈ pre, candMatches c' args = false) → candMatches c args = true →
    overloadDispatch (pre ++ c :: post) args = .value (candResult c args) := by
  intro pre c post args hpre hc
  unfold overloadDispatch
  rw [firstHit_first pre c post args hpre hc]

lemma firstHit_none_of_noMatch :
    ∀ (cs : List Candidate) (args : List SVal),
    (∀ c ∈ cs, candMatches c args = false) →
    firstHit (dispatchResults cs args) = none := by
  intro cs
  induction cs with
  | nil => intro args _; rfl
  | cons c cs ih =>
    intro args h
    have h' : candMatches c args = false := h c (List.mem_cons_self c cs)
    have ihv := ih args (fun d hd => h d (List.mem_cons_of_mem c hd))
    simp only [dispatchResults, List.map_cons] at ihv ⊢
    rw [matchC_eq, h']
    simpa [firstHit] using ihv

lemma countSubst_append (op : MethodOp) :
    ∀ (xs ys : List RegAction),
    countSubst op (xs ++ ys) = countSubst op xs + countSubst op ys := by
  intro xs ys
  induction xs with
  | nil => simp [countSubst]
  | cons x xs ih =>
    cases x with
    | defineMethod n o => simpa [countSubst] using ih
    | substituteOp o => simp [countSubst, ih, Nat.add_assoc]

lemma countSubst_run :
    ∀ (op : MethodOp) (regs : List (String × MethodOp)) (st : SchemeState),
    countSubst op (runRegs st regs).2
      = if op ∈ st.substituredOps then 0
        else if hasOp op regs then 1 else 0 := by
  intro op regs
  induction regs with
  | nil =>
    intro st
    simp [runRegs, countSubst, hasOp]
  | cons r rs ih =>
    intro st
    simp only [runRegs, countSubst_append]
    by_cases hc : r.2 ∈ st.substituredOps
    · simp only [addMethodOp, if_pos hc]
      rw [ih st]
      by_cases hop : r.2 = op
      · subst hop
        simp [countSubst, hasOp, hc]
      · simp [countSubst, hasOp, hop]
    · simp only [addMethodOp, if_neg hc]
      rw [ih ⟨r.2 :: st.substituredOps⟩]
      by_cases hop : r.2 = op
      · subst hop
        simp [countSubst, hasOp, hc, List.mem_cons]
      · have hmem : (op ∈ r.2 :: st.substituredOps) ↔ op ∈ st.substituredOps := by
          constructor
          · intro h
            rcases List.mem_cons.mp h with h1 | h2
            · exact absurd h1.symm hop
            · exact h2
          · exact fun h => List.mem_cons_of_mem _ h
        simp [countSubst, hop, hasOp, hmem]

/-! ## Claim C1: overload dispatch and first-match invocation -/

/-- A concrete fixed-arity candidate over one integer parameter whose
native callable returns 10. -/
def exCandTen : Candidate :=
  .fixed "f" [.nInt] (some .nInt) (fun _ => .vInt 10)

/-- A second candidate with the same signature whose native callable
returns 20. -/
def exCandTwenty : Candidate :=
  .fixed "f" [.nInt] (some .nInt) (fun _ => .vInt 20)

/-- Claim C1, counterexample.  Two candidates registered in this
order, both matching the one-argument integer call: the dispatcher
returns the first candidate's result, but the results array evaluates
`match_fn` for every candidate, so the second (later) matching
candidate's native callable is invoked as well — contradicting "the
native callables of later candidates that also match are never
invoked". -/
theorem c1_counterexample :
    candMatches exCandTen [SVal.integer 5] = true ∧
    candMatches exCandTwenty [SVal.integer 5] = true ∧
    overloadDispatch [exCandTen, exCandTwenty] [SVal.integer 5]
      = .value (SVal.integer 10) ∧
    dispatchInvoked [exCandTen, exCandTwenty] [SVal.integer 5] = [true, true] :=
  ⟨rfl, rfl, rfl, rfl⟩

/-- Claim C1, amended: on a call whose arguments match more than one
candidate, the dispatcher returns the first matching candidate's
result (first-match in declaration order, no scoring); however, the
dispatch evaluates `match_fn` for every candidate, so every matching
candidate's native callable is invoked (later matching candidates'
results are discarded). -/
theorem c1_amended_first_match :
    ∀ (pre : List Candidate) (c : Candidate) (post : List Candidate) (args : List SVal),
    (∀ c' ∈ pre, candMatches c' args = false) →
    candMatches c args = true →
    overloadDispatch (pre ++ c :: post) args = .value (candResult c args) ∧
    dispatchInvoked (pre ++ c :: post) args
      = (pre ++ c :: post).map (fun d => candMatches d args) := by
  intro pre c post args hpre hc
  exact ⟨dispatch_first pre c post args hpre hc, rfl⟩

/-- Witness for `c1_amended_first_match` at a concrete overload set. -/
theorem c1_witness :
    overloadDispatch [exCandTwenty] [SVal.integer 5] = .value (SVal.integer 20) ∧
    dispatchInvoked [exCandTwenty] [SVal.integer 5] = [true] := by
  have h := c1_amended_first_match [] exCandTwenty [] [SVal.integer 5]
    (by intro c' hc'; cases hc') rfl
  exact ⟨h.1, h.2⟩

/-! ## Claim C2: wrong-type error in the fixed-arity adapter -/

/-- Claim C2: in validation builds, calling a fixed-arity adapter
where position `i` (1-based) holds the first argument failing its
`is` check raises a wrong-type error carrying the adapter's name, the
1-based position, the offending value, and the expected type's
display name — and the native callable is never invoked (the
invocation list is empty). -/
theorem c2_wrong_type :
    ∀ (a : Adapter) (args : List SVal) (i : Nat),
    args.length = a.params.length →
    i < args.length →
    isD (a.params.getD i .nBool) (args.getD i .unspecified) = false →
    (∀ j, j < i → isD (a.params.getD j .nBool) (args.getD j .unspecified) = true) →
    callFn a args
      = (.wrongType a.name (i + 1) (args.getD i .unspecified)
          (displayName (a.params.getD i .nBool)), []) := by
  intro a args i hlen hi hfail hbefore
  have htake : args.take a.params.length = args := by
    rw [← hlen]
    exact List.take_length args
  have hfm := firstMismatch_first i a.params args (hlen ▸ hi) hi hfail hbefore
  simp only [callFn, htake, hfm]

/-- A concrete adapter taking an integer and a boolean. -/
def exAdapterIB : Adapter :=
  ⟨"g", [.nInt, .nBool], some .nInt, fun xs => xs.getD 0 .junk⟩

/-- Witness for `c2_wrong_type`: position 2 holds an integer where a
boolean is expected; the adapter raises the wrong-type error and the
callable is not invoked. -/
theorem c2_witness :
    callFn exAdapterIB [SVal.integer 1, SVal.integer 2]
      = (.wrongType "g" 2 (SVal.integer 2) "boolean", []) := by
  have h := c2_wrong_type exAdapterIB [SVal.integer 1, SVal.integer 2] 1
    rfl (by decide) rfl
    (by
      intro j hj
      have hj0 : j = 0 := Nat.lt_one_iff.mp hj
      subst hj0
      rfl)
  exact h

/-! ## Claim C3: successful fixed-arity call -/

/-- Claim C3: calling a fixed-arity adapter with exactly the declared
arity and every argument satisfying its declared type predicate
invokes the underlying native callable exactly once, with the
converted arguments `to<Ai>` in position order, and returns `from<R>`
of the native result — a dynamic value satisfying `is<R>` — or the
runtime's canonical unspecified value when `R` is void. -/
theorem c3_success_invocation :
    ∀ (a : Adapter) (args : List SVal),
    args.length = a.params.length →
    allPass a.params args = true →
    (∀ r, a.ret = some r →
      wellTypedB r (a.native (List.zipWith toD a.params args)) = true) →
    callFn a args
      = (.ok (retValue a (List.zipWith toD a.params args)),
         [List.zipWith toD a.params args]) ∧
    (∀ r, a.ret = some r →
      isD r (retValue a (List.zipWith toD a.params args)) = true) := by
  intro a args hlen hpass hwt
  have htake : args.take a.params.length = args := by
    rw [← hlen]
    exact List.take_length args
  have hfm := firstMismatch_none_of_allPass a.params args hpass
  constructor
  · simp only [callFn, htake, hfm]
  · intro r hr
    have := hwt r hr
    simp only [retValue, hr]
    exact wellTyped_isD_fromD r _ this

/-- A concrete adapter incrementing an integer. -/
def exAdapterInc : Adapter :=
  ⟨"add1", [.nInt], some .nInt,
   fun xs =>
     match xs.getD 0 .junk with
     | .vInt n => .vInt (n + 1)
     | _ => .junk⟩

/-- Witness for `c3_success_invocation`: `(add1 4)` invokes the
native callable once with the converted argument and returns the
integer 5, which satisfies the integer predicate. -/
theorem c3_witness :
    callFn exAdapterInc [SVal.integer 4]
      = (.ok (SVal.integer 5), [[NVal.vInt 4]]) ∧
    isD .nInt (SVal.integer 5) = true := by
  have h := c3_success_invocation exAdapterInc [SVal.integer 4] rfl rfl
    (by
      intro r hr
      have hr' : r = NType.nInt := by
        have : (some NType.nInt : Option NType) = some r := hr
        exact (Option.some.inj this).symm
      subst hr'
      rfl)
  exact ⟨h.1, h.2 .nInt rfl⟩

/-! ## Claim C4: scalar round-trips through the value converter -/

/-- Claim C4, evaluation at the failing inputs.  The claim asserts
`to<T>(from<T>(x)) == x` for every supported scalar type, including
`unsigned char` characters and `std::string_view` strings.  The code
fails it: `to`'s dispatch has a case for `char` but none for
`unsigned char`, so `to<unsigned char>` falls through to the
native-object branch and reinterprets the character value's storage
through `s7_c_object_value` (undefined behaviour, modelled as
`junk`), even though `is<unsigned char>` accepts the value; and
`to<std::string_view>` uses the NUL-terminated `string_view`
constructor, truncating a stored string at its first embedded NUL
byte even though `from<std::string_view>` stored every byte. -/
theorem c4_roundtrip_failure :
    isD .nUChar (fromD .nUChar (NVal.vChar 97)) = true ∧
    toD .nUChar (fromD .nUChar (NVal.vChar 97)) = NVal.junk ∧
    NVal.junk ≠ NVal.vChar 97 ∧
    fromD .nSView (NVal.vStr "a\x00b") = SVal.str "a\x00b" ∧
    toD .nSView (fromD .nSView (NVal.vStr "a\x00b")) = NVal.vStr "a" ∧
    NVal.vStr "a" ≠ NVal.vStr "a\x00b" := by
  refine ⟨rfl, rfl, by decide, rfl, ?_, by decide⟩
  decide

/-! ## Claim C5: variadic candidates match on arity alone -/

/-- Claim C5: during overload resolution a variadic candidate matches
on arity alone if and only if the actual argument-list length is at
least the candidate's minimum arity, and a call with fewer arguments
than that minimum neither selects nor invokes the candidate.  In this
library a variadic native callable receives only the `VarArgs` cursor
(`call_fn_varargs` passes it nothing else, and `define_function`
registers a standalone variadic function with zero required
arguments), so its minimum arity is `variadicMinArity = 0`:
`match_fn` performs no arity or type check for a variadic candidate,
which coincides with the length being ≥ 0 for every call. -/
theorem c5_variadic_arity :
    ∀ (ret : Option NType) (elem : NType) (f : List SVal → SVal) (args : List SVal),
    (candInvoked (.variadic ret elem f) args args.length = true
      ↔ args.length ≥ variadicMinArity) ∧
    matchC (.variadic ret elem f) args args.length
      = some (candResult (.variadic ret elem f) args) ∧
    (args.length < variadicMinArity →
      candInvoked (.variadic ret elem f) args args.length = false) := by
  intro ret elem f args
  refine ⟨⟨fun _ => Nat.zero_le _, fun _ => rfl⟩, rfl, ?_⟩
  intro h
  exact absurd h (Nat.not_lt_zero _)

/-- Witness for `c5_variadic_arity` at a concrete variadic candidate
and the empty call. -/
theorem c5_witness :
    candInvoked (.variadic none .nInt (fun _ => SVal.integer 0)) [] 0 = true ∧
    matchC (.variadic none .nInt (fun _ => SVal.integer 0)) [] 0
      = some SVal.unspecified := by
  have h := c5_variadic_arity none .nInt (fun _ => SVal.integer 0) []
  exact ⟨h.1.mpr (by decide), h.2.1⟩

/-! ## Claim C6: the no-overload-match error -/

/-- Claim C6: when no candidate matches, the dispatch function invokes
no candidate's native callable and raises an error tagged with the
distinct symbol `no-overload-match` whose payload carries the
formatted message, the actual argument types of the call, and the
expected signature of every candidate. -/
theorem c6_no_match_error :
    ∀ (cs : List Candidate) (args : List SVal),
    (∀ c ∈ cs, candMatches c args = false) →
    overloadDispatch cs args
      = .noMatch "no-overload-match" (noMatchMsg cs.length)
          (args.map typeOfString) (cs.map sigOf) ∧
    dispatchInvoked cs args = cs.map (fun _ => false) := by
  intro cs args h
  constructor
  · unfold overloadDispatch
    rw [firstHit_none_of_noMatch cs args h]
  · unfold dispatchInvoked
    exact List.map_congr_left (fun c hc => h c hc)

/-- A fixed candidate over one integer parameter used by the C6
witness. -/
def exCandInt : Candidate :=
  .fixed "h" [.nInt] (some .nInt) (fun _ => .vInt 0)

/-- Witness for `c6_no_match_error`: a boolean argument matches no
candidate of the one-candidate set, so the dispatcher raises the
tagged error listing the actual argument type and the candidate's
signature, and invokes nothing. -/
theorem c6_witness :
    overloadDispatch [exCandInt] [SVal.boolean true]
      = .noMatch "no-overload-match" (noMatchMsg 1) ["boolean"]
          [⟨false, ["integer?", "integer?"]⟩] ∧
    dispatchInvoked [exCandInt] [SVal.boolean true] = [false] := by
  have h := c6_no_match_error [exCandInt] [SVal.boolean true]
    (by
      intro c hc
      have hc' : c = exCandInt := List.mem_singleton.mp hc
      subst hc'
      rfl)
  exact ⟨h.1, h.2⟩

/-! ## Claim C7: the arithmetic operator wrapper -/

/-- The empty method table: no type defines any operator method. -/
def emptyMTab : Int → String → Option (SVal → SVal → SVal) := fun _ _ => none

/-- A concrete stand-in for the captured original built-in operator. -/
def exOld : List SVal → SVal := fun _ => SVal.integer 99

/-- Claim C7, counterexample.  For the `-` operator, a fold pair whose
c-object operand has no `-` method raises a wrong-type error whose
descriptor is the hardcoded string `"a c-object that defines +"`
(s7.hpp line 884) — it does not name the required `-` capability, so
the claim's "raising a type error naming the required capability"
fails for every operator other than `+`. -/
theorem c7_counterexample :
    methodOpWrapper emptyMTab exOld "-" [SVal.cobj 7 0, SVal.integer 3]
      = (.wrongType "-" 0 (SVal.cobj 7 0) "a c-object that defines +",
         [.lookup 7 "-"]) ∧
    ("a c-object that defines +" : String) ≠ "a c-object that defines -" :=
  ⟨rfl, by decide⟩

/-- Claim C7, amended: the substituted variadic operator wrapper folds
its arguments left-to-right; for each operand pair where either
operand is a native object it looks up the operator method on that
operand's metadata container and calls it with both operands, raising
a type error whose caller is the operator's name but whose descriptor
is the fixed string "a c-object that defines +" regardless of the
operator, if the method is absent; a pair with no native-object
operand is delegated to the original built-in operator.  In
particular `(+ native-instance 3)` invokes the native method exactly
once with (instance, 3), and `(+ 2 3)` invokes the original built-in
exactly once and never looks up a method. -/
theorem c7_amended_fold :
    ∀ (mtab : Int → String → Option (SVal → SVal → SVal)) (old : List SVal → SVal)
      (nm : String) (res arg : SVal),
    (s7_is_c_object res = false → s7_is_c_object arg = false →
      opPair mtab old nm res arg
        = (.ok (old [res, arg]), [.builtinCall [res, arg]])) ∧
    (∀ tag obj m, res = SVal.cobj tag obj → mtab tag nm = some m →
      opPair mtab old nm res arg
        = (.ok (m res arg), [.lookup tag nm, .methodCall tag res arg])) ∧
    (∀ tag obj, res = SVal.cobj tag obj → mtab tag nm = none →
      opPair mtab old nm res arg
        = (.wrongType nm 0 res "a c-object that defines +", [.lookup tag nm])) ∧
    (∀ rest, methodOpWrapper mtab old nm (res :: arg :: rest)
        = (match opPair mtab old nm res arg with
           | (.ok r, evs) =>
             ((opFoldAux mtab old nm r rest).1, evs ++ (opFoldAux mtab old nm r rest).2)
           | (out, evs) => (out, evs))) ∧
    (∀ tag obj m, res = SVal.cobj tag obj → mtab tag nm = some m →
      methodOpWrapper mtab old nm [res, arg]
        = (.ok (m res arg), [.lookup tag nm, .methodCall tag res arg])) ∧
    (∀ (k n : Int), res = SVal.integer k → arg = SVal.integer n →
      methodOpWrapper mtab old nm [res, arg]
        = (.ok (old [res, arg]), [.builtinCall [res, arg]])) := by
  intro mtab old nm res arg
  refine ⟨?_, ?_, ?_, ?_, ?_, ?_⟩
  · intro h1 h2
    simp [opPair, h1, h2]
  · intro tag obj m hres hm
    subst hres
    simp [opPair, s7_is_c_object, s7_c_object_type, hm]
  · intro tag obj hres hm
    subst hres
    simp [opPair, s7_is_c_object, s7_c_object_type, hm]
  · intro rest
    rfl
  · intro tag obj m hres hm
    subst hres
    simp [methodOpWrapper, opFoldAux, opPair, s7_is_c_object, s7_c_object_type, hm]
  · intro k n hres harg
    subst hres
    subst harg
    simp [methodOpWrapper, opFoldAux, opPair, s7_is_c_object]

/-- A method table in which the type tagged 7 defines a `+` method
returning the integer 42. -/
def oneMTab : Int → String → Option (SVal → SVal → SVal) :=
  fun tag nm => if tag = 7 ∧ nm = "+" then some (fun _ _ => SVal.integer 42) else none

/-- Witness for `c7_amended_fold`: `(+ instance 3)` with an instance
of the type tagged 7 invokes the registered method exactly once with
(instance, 3); `(+ 2 3)` invokes the captured built-in exactly once
and performs no method lookup. -/
theorem c7_witness :
    methodOpWrapper oneMTab exOld "+" [SVal.cobj 7 0, SVal.integer 3]
      = (.ok (SVal.integer 42),
         [.lookup 7 "+", .methodCall 7 (SVal.cobj 7 0) (SVal.integer 3)]) ∧
    methodOpWrapper oneMTab exOld "+" [SVal.integer 2, SVal.integer 3]
      = (.ok (SVal.integer 99), [.builtinCall [SVal.integer 2, SVal.integer 3]]) := by
  have h1 := c7_amended_fold oneMTab exOld "+" (SVal.cobj 7 0) (SVal.integer 3)
  have h2 := c7_amended_fold oneMTab exOld "+" (SVal.integer 2) (SVal.integer 3)
  exact ⟨h1.2.2.2.2.1 7 0 (fun _ _ => SVal.integer 42) rfl rfl,
         h2.2.2.2.2.2 2 3 rfl rfl⟩

/-! ## Claim C8: at most one substitution per operator -/

/-- Claim C8: within one `Scheme` instance the built-in binding of an
arithmetic operator is replaced with the wrapper at most once across
all registrations (exactly once as soon as some registration targets
the operator), and any call to `usertype_add_method_op` for an
already-substituted operator only defines the method in the
registering type's metadata container and changes nothing else. -/
theorem c8_substitute_once :
    ∀ (regs : List (String × MethodOp)) (op : MethodOp),
    countSubst op (runRegs initState regs).2 = (if hasOp op regs then 1 else 0) ∧
    (∀ (st : SchemeState) (n : String), op ∈ st.substituredOps →
      addMethodOp st n op = (st, [.defineMethod n op])) := by
  intro regs op
  constructor
  · have h := countSubst_run op regs initState
    simpa [initState] using h
  · intro st n hmem
    simp [addMethodOp, hmem]

/-- Witness for `c8_substitute_once`: two types registering a `+`
method cause exactly one substitution, and a registration against a
state that has already substituted `+` performs only the method
definition. -/
theorem c8_witness :
    countSubst .add (runRegs initState [("A", .add), ("B", .add)]).2 = 1 ∧
    addMethodOp ⟨[MethodOp.add]⟩ "C" .add
      = (⟨[MethodOp.add]⟩, [.defineMethod "C" .add]) := by
  have h := c8_substitute_once [("A", .add), ("B", .add)] .add
  exact ⟨h.1.trans (by decide), h.2 ⟨[MethodOp.add]⟩ "C" (by decide)⟩

/-! ## Claim C9: the installed equality hook -/

/-- Claim C9: for a registered native type supporting value equality,
the installed equality hook returns true immediately when the two
operands are the identical dynamic value; otherwise false when the
second operand is not a native object carrying the type's registered
tag; otherwise the result of the type's native equality applied to
the two unboxed objects. -/
theorem c9_equality_hook :
    ∀ (tag : Int) (eqT : Nat → Nat → Bool) (a b : SPtr),
    (a.id = b.id → isEqualHook tag eqT a b = .boolean true) ∧
    (a.id ≠ b.id →
      (s7_is_c_object b.v && (s7_c_object_type b.v = tag)) = false →
      isEqualHook tag eqT a b = .boolean false) ∧
    (∀ ta oa ob, a.id ≠ b.id → a.v = SVal.cobj ta oa → b.v = SVal.cobj tag ob →
      isEqualHook tag eqT a b = .boolean (eqT oa ob)) := by
  intro tag eqT a b
  refine ⟨?_, ?_, ?_⟩
  · intro h
    simp [isEqualHook, h]
  · intro hid htag
    simp [isEqualHook, hid, htag]
  · intro ta oa ob hid ha hb
    simp [isEqualHook, hid, ha, hb, s7_is_c_object, s7_c_object_type]

/-- Witness for `c9_equality_hook`: distinct heap cells holding
equal-tagged objects delegate to the native equality; a non-object
second operand yields false; an identical cell yields true. -/
theorem c9_witness :
    isEqualHook 3 (fun x y => x == y) ⟨1, SVal.cobj 3 5⟩ ⟨2, SVal.cobj 3 5⟩
      = .boolean true ∧
    isEqualHook 3 (fun x y => x == y) ⟨1, SVal.cobj 3 5⟩ ⟨2, SVal.integer 0⟩
      = .boolean false ∧
    isEqualHook 3 (fun x y => x == y) ⟨1, SVal.cobj 3 5⟩ ⟨1, SVal.cobj 3 5⟩
      = .boolean true := by
  have h1 := c9_equality_hook 3 (fun x y => x == y) ⟨1, SVal.cobj 3 5⟩ ⟨2, SVal.cobj 3 5⟩
  have h2 := c9_equality_hook 3 (fun x y => x == y) ⟨1, SVal.cobj 3 5⟩ ⟨2, SVal.integer 0⟩
  have h3 := c9_equality_hook 3 (fun x y => x == y) ⟨1, SVal.cobj 3 5⟩ ⟨1, SVal.cobj 3 5⟩
  exact ⟨h1.2.2 3 5 5 (by decide) rfl rfl, h2.2.1 (by decide) (by decide), h3.1 rfl⟩

/-! ## Claim C10: the overload arity bounds -/

/-- Claim C10, evaluation at the failing input.  `detail::vmax`
recurses through `vmin`, so for the candidate arities (1, 2, 3) the
declared maximum is `max(1, min(2, 3)) = 2` while the true maximum is
3: the registration declares 1 required and 1 optional argument
instead of 1 required and 2 optional, contradicting "`max_arity` over
the candidates equals the true maximum of their arities (including
sets of three or more candidates)".  `min_arity` itself is correct. -/
theorem c10_max_arity_bug :
    maxArityM 1 [2, 3] = 2 ∧
    trueMax 1 [2, 3] = 3 ∧
    minArityM 1 [2, 3] = 1 ∧
    maxArityM 1 [2, 3] - minArityM 1 [2, 3] = 1 ∧
    trueMax 1 [2, 3] - minArityM 1 [2, 3] = 2 ∧
    maxArityM 1 [2, 3] ≠ trueMax 1 [2, 3] := by
  decide

end S7
